import Mathlib

/-! Verification of the SCM chatbot query pipeline.

Shallow embedding of the supply-chain natural-language query pipeline:
the orchestrator `SupplyChainAgent.handle_query` together with the
SQL-translation prototype `SupplyChainDB` (domain validation, SQL safety
validation, generation post-processing, paginated execution, result
formatting).

Python strings are modelled as Lean `String` / `List Char`; Python string
methods (`lower`, `strip`, substring `in`) are re-implemented below with
their Python semantics (restricted to the ASCII texts the pipeline uses).
The external inference service is a function `String → Option String`
(`none` = transport failure); the relational store is a record holding the
introspectable schema data plus an execution function
`String → Option (List Row)` (`none` = the store rejects the statement).
Store executions are instrumented: pipeline functions also return the list
of SQL texts actually submitted to the store, in order.

The agent imports `OllamaQueryTranslator` (`translate_query` with
`limit`/`offset` and a `total_count` result field), a class that does not
exist in the repository; only its caller and the near-duplicate prototype
`SupplyChainDB` are present. Definitions for that missing component are
modelled from the spec and are marked `Modelled from the spec:` in their
doc comments; everything else is translated from the source.
-/

namespace SCM

/-! ## Python-style string primitives -/

/-- Python `str.lower()` on the ASCII texts used here, as a char list. -/
def lowerChars (s : String) : List Char :=
  s.data.map Char.toLower

/-- Predicate `beginsWith n h` tests whether `n` is an initial segment of `h`. -/
def beginsWith : List Char → List Char → Bool
  | [], _ => true
  | _ :: _, [] => false
  | a :: as, b :: bs => a == b && beginsWith as bs

/-- Python substring containment `needle in hay` on char lists. -/
def containsSub (needle : List Char) : List Char → Bool
  | [] => beginsWith needle []
  | b :: bs => beginsWith needle (b :: bs) || containsSub needle bs

/-- Drop from the right end while `p` holds. -/
def dropWhileEndL (p : Char → Bool) (l : List Char) : List Char :=
  (l.reverse.dropWhile p).reverse

/-- Python `str.strip(chars)`: remove the characters satisfying `p` from
both ends. -/
def pyStrip (p : Char → Bool) (l : List Char) : List Char :=
  dropWhileEndL p (l.dropWhile p)

/-- The whitespace characters stripped by Python `str.strip()` (ASCII
subset actually occurring in model responses). -/
def isPyWs (c : Char) : Bool :=
  c == ' ' || c == '\t' || c == '\n' || c == '\r' || c == '\x0b' || c == '\x0c'

/-! ## Data model -/

/-- A SQLite cell value as surfaced to Python (floats and blobs do not
occur in any claim and are not modelled). `NULL` is `Option.none` at the
row level. -/
inductive SQLVal
  | int (n : Int)
  | str (s : String)
deriving DecidableEq

/-- Python f-string rendering of a cell value. -/
def renderVal : SQLVal → String
  | .int n => toString n
  | .str s => s

/-- A result row: an ordered field/value mapping, `none` = SQL NULL. -/
def Row : Type := List (String × Option SQLVal)

instance : DecidableEq Row := by
  unfold Row
  infer_instance

/-- The relational store as seen by the pipeline: introspection data for
the single table plus an execution function. `exec sql = none` models the
store rejecting the statement. -/
structure Store where
  schema : List (String × String)
  samples : List Row
  exec : String → Option (List Row)

/-- The pagination metadata dictionary built by `handle_query`. -/
structure PaginationInfo where
  limit : Int
  offset : Int
  total : Int
  has_more : Bool
deriving DecidableEq

/-- The agent response dictionary, as a tagged union over the `status`
field of the Python dict (`invalid` / `error` / `success`). -/
inductive QueryResponse
  | invalid (response : String)
  | error (response : String)
  | success (response : String) (query_used : String) (pagination : PaginationInfo)
deriving DecidableEq

/-- The failure taxonomy of the translation pipeline (spec section 7);
`DomainRejected` is handled directly by the orchestrator and has no
constructor here. -/
inductive PipelineError
  | schemaError
  | generationError
  | unsafeQueryError
  | executionError
deriving DecidableEq

/-- Human-readable message attached to each failure kind (the unsafe-query
text is the `ValueError` message raised by `SupplyChainDB._execute_sql`). -/
def errorMessage : PipelineError → String
  | .schemaError => "Schema introspection failed"
  | .generationError => "Inference service returned no usable SQL"
  | .unsafeQueryError => "Query failed safety check"
  | .executionError => "Execution failed"

/-- The dictionary returned by a successful `translate_query` call:
the SQL used, the page of rows, and the optional total row count. -/
structure TransResult where
  query : String
  results : List Row
  total_count : Option Int
deriving DecidableEq

/-! ## Source embeddings: `SupplyChainAgent` -/

/-- Source `SupplyChainAgent.supply_chain_keywords`, in source order. -/
def supply_chain_keywords : List String :=
  ["order", "delivery", "product", "supplier", "inventory",
   "shipment", "warehouse", "customer", "logistics", "stock",
   "supply", "chain", "transport", "shipping", "purchase"]

/-- Source `SupplyChainAgent._validate_query`: case-insensitive substring match
of the query against the keyword list. -/
def validate_query (user_query : String) : Bool :=
  supply_chain_keywords.any (fun keyword => containsSub keyword.data (lowerChars user_query))

/-- The fixed rejection message for out-of-domain queries. -/
def invalidMsg : String :=
  "Your query doesn\x27t seem related to supply chain data. Please rephrase with relevant terms."

/-- Source `SupplyChainAgent._dict_to_bullets`: one `- field: value` line per
non-NULL field, in row order. -/
def dict_to_bullets (data : Row) : String :=
  String.intercalate "\n"
    (data.filterMap (fun kv =>
      match kv.2 with
      | none => none
      | some v => some ("- " ++ kv.1 ++ ": " ++ renderVal v)))

/-- Source `SupplyChainAgent._format_response`: fixed message on an empty page,
otherwise a count header followed by up to the first three rows, numbered
from 1, rendered with `dict_to_bullets`. -/
def format_response (results : List Row) : String :=
  if results.isEmpty then "No matching records found."
  else
    let samples := if results.length > 3 then results.take 3 else results
    let formatted_samples := String.intercalate "\n\n"
      (samples.enum.map (fun p =>
        "Record " ++ toString (p.1 + 1) ++ ":\n" ++ dict_to_bullets p.2))
    "Found " ++ toString results.length ++ " records.\n\nSample results:\n" ++ formatted_samples

/-- Source `SupplyChainAgent.handle_query`, parameterised over the translator it
calls (the imported `OllamaQueryTranslator.translate_query`). A translator
maps query text, limit and offset to either a `TransResult` or a raised
pipeline error (the Python `except` catches it), together with the trace
of SQL texts it submitted to the store. -/
def handle_query
    (translate : String → Int → Int → Except PipelineError TransResult × List String)
    (user_query : String) (limit offset : Int) : QueryResponse × List String :=
  if validate_query user_query = false then
    (.invalid invalidMsg, [])
  else
    match translate user_query limit offset with
    | (.error e, tr) => (.error ("Error processing query: " ++ errorMessage e), tr)
    | (.ok translation, tr) =>
        let total_count : Int := translation.total_count.getD (translation.results.length : Int)
        (.success (format_response translation.results) translation.query
          { limit := limit, offset := offset, total := total_count,
            has_more := decide (offset + (translation.results.length : Int) < total_count) },
         tr)

/-! ## Source embeddings: `SupplyChainDB` (query_translator.py) -/

/-- Source `SupplyChainDB._validate_sql`: the forbidden pattern list, verbatim
(note the trailing space after each keyword). -/
def forbidden : List String :=
  [";", "--", "/*", "*/", "drop ", "delete ", "update ", "insert "]

/-- Source `SupplyChainDB._validate_sql`: accept iff no forbidden pattern occurs
as a substring of the lowercased text. -/
def validate_sql (sql : String) : Bool :=
  !(forbidden.any (fun f => containsSub f.data (lowerChars sql)))

/-- Source `SupplyChainDB` post-processing of the raw model response:
`content.strip().strip(';')` — whitespace stripped from both ends, then
ALL leading and trailing semicolons stripped. -/
def postprocessSrc (raw : String) : String :=
  ⟨pyStrip (· == ';') (pyStrip isPyWs raw.data)⟩

/-- Source `SupplyChainDB._create_prompt`: deterministic template embedding the
question, the column list, the sample rows and the instruction set. The
JSON punctuation of `json.dumps` is rendered in a simplified line form —
no claim inspects the prompt text. -/
def create_prompt (query : String) (store : Store) : String :=
  "\nConvert this supply chain query to SQLite SQL:\n\"" ++ query ++
  "\"\n\nDatabase Schema:\n" ++
  String.intercalate "\n" (store.schema.map (fun c => c.1 ++ ": " ++ c.2)) ++
  "\n\nSample Rows:\n" ++
  String.intercalate "\n" (store.samples.map dict_to_bullets) ++
  "\n\nRules:\n1. Use EXACT column names from schema\n2. For dates: Use \x27YYYY-MM-DD\x27 format\n3. For locations: Use full names (\x27Puerto Rico\x27 not \x27PR\x27)\n4. Return ONLY the SQL query, no commentary\n\nSQL Query:"

/-- The outcome dictionary of `SupplyChainDB.query`: either the SQL and
its results, or the caught error string. -/
inductive DBOutcome
  | ok (query : String) (results : List Row)
  | err (error : String)
deriving DecidableEq

/-- Source `SupplyChainDB.query` and `_execute_sql`: generate SQL from the model
response, post-process it, safety-validate it, and only then submit it to
the store. The second component is the instrumented trace of SQL texts
submitted to the store. There is no emptiness check on the response and no
total-count computation in this prototype. -/
def SupplyChainDB.query (gen : String → Option String) (store : Store)
    (natural_query : String) : DBOutcome × List String :=
  match gen (create_prompt natural_query store) with
  | none => (.err "inference service failure", [])
  | some raw =>
      let sql := postprocessSrc raw
      if validate_sql sql then
        match store.exec sql with
        | some rows => (.ok sql rows, [sql])
        | none => (.err "Execution failed", [sql])
      else (.err "Query failed safety check", [])

/-! ## Spec-modelled component: `OllamaQueryTranslator.translate_query`

The agent imports `OllamaQueryTranslator` from `src.models.query_translator`,
but the repository only defines the prototype `SupplyChainDB` there. The
definitions below are modelled from the spec (sections 4.3 to 4.6): prompt
construction with an explicit limit/offset instruction, generation with
post-processing (trim whitespace, drop a single trailing terminator, empty
response is a generation failure), safety validation before any execution,
and paginated execution with an independent count sub-query that must not
silently fall back to the page length. -/

/-- Modelled from the spec: remove a single trailing statement terminator
if present (spec 4.4). -/
def removeTrailingSemi (l : List Char) : List Char :=
  match l.getLast? with
  | some c => if c = ';' then l.dropLast else l
  | none => l

/-- Modelled from the spec: the SQL Generator post-processing — "trimming
whitespace and a single trailing statement terminator if present"
(spec 4.4). -/
def postprocessSpecT (raw : String) : String :=
  ⟨removeTrailingSemi (pyStrip isPyWs raw.data)⟩

/-- Modelled from the spec: the prompt builder of the missing translator
(spec 4.3) — embeds the question, the schema snapshot, and an explicit
limit/offset instruction. -/
def createPromptT (query : String) (store : Store) (limit offset : Int) : String :=
  create_prompt query store ++
  "\nAppend a limit/offset clause: LIMIT " ++ toString limit ++
  " OFFSET " ++ toString offset ++ "\n"

/-- Modelled from the spec: the counting sub-query wrapping the original,
unmodified generated statement (spec 4.6). -/
def countWrap (sql : String) : String :=
  "SELECT COUNT(*) FROM (" ++ sql ++ ")"

/-- Modelled from the spec: read the single count value from the count
sub-query result; `none` when the result yields no count. -/
def extractCount (crows : List Row) : Option Int :=
  match crows with
  | [] => none
  | r :: _ =>
      match r with
      | (_, some (.int n)) :: _ => some n
      | _ => none

/-- Modelled from the spec: `OllamaQueryTranslator.translate_query`, the
translator the agent imports but the repository does not define. Pipeline
per spec 4.3-4.6: build the prompt, call the inference service, post-process,
fail with `GenerationError` on an empty response, fail with
`UnsafeQueryError` (before any store submission) when validation rejects
the statement, execute the statement as given, then compute the total via
the count sub-query, failing with `ExecutionError` when the count
sub-query fails or yields no count. Second component: the instrumented
trace of SQL texts submitted to the store. -/
def translate_query (gen : String → Option String) (store : Store)
    (user_query : String) (limit offset : Int) :
    Except PipelineError TransResult × List String :=
  match gen (createPromptT user_query store limit offset) with
  | none => (.error .generationError, [])
  | some raw =>
      let sql := postprocessSpecT raw
      if sql = "" then (.error .generationError, [])
      else if validate_sql sql then
        match store.exec sql with
        | none => (.error .executionError, [sql])
        | some rows =>
            match store.exec (countWrap sql) with
            | none => (.error .executionError, [sql, countWrap sql])
            | some crows =>
                match extractCount crows with
                | none => (.error .executionError, [sql, countWrap sql])
                | some n => (.ok ⟨sql, rows, some n⟩, [sql, countWrap sql])
      else (.error .unsafeQueryError, [])

/-! ## Claim-side definitions (following the wording of the claims, for
comparison against the source definitions) -/

/-- A word character for word-boundary matching (claim C2). -/
def isWordChar (c : Char) : Bool := c.isAlphanum || c == '_'

/-- Predicate `hasWholeWordFrom kw prev l`: does `kw` occur in `l` as a whole token,
i.e. not preceded (by `prev`, the character just before `l`) and not
followed by a word character? -/
def hasWholeWordFrom (kw : List Char) (prev : Option Char) : List Char → Bool
  | [] => false
  | c :: rest =>
      (beginsWith kw (c :: rest)
        && !((prev.map isWordChar).getD false)
        && !((((c :: rest).drop kw.length).head?.map isWordChar).getD false))
      || hasWholeWordFrom kw (some c) rest

/-- Whole-token (word-boundary) occurrence of `kw` in `hay` (claim C2). -/
def hasWholeWord (kw hay : List Char) : Bool :=
  hasWholeWordFrom kw none hay

/-- The rejection condition claim C2 ascribes to the safety validator:
a statement separator, a comment marker, or a destructive keyword
occurring as a whole token in the lowercased text. -/
def claimRejects (s : String) : Bool :=
  containsSub ";".data (lowerChars s)
  || containsSub "--".data (lowerChars s)
  || containsSub "/*".data (lowerChars s)
  || containsSub "*/".data (lowerChars s)
  || ["drop", "delete", "update", "insert"].any
      (fun kw => hasWholeWord kw.data (lowerChars s))

/-- Claim-side bullet rendering (claim C8): one line per field whose
value is not null, in field order. -/
def bulletsSpec (data : Row) : String :=
  String.intercalate "\n"
    (data.filterMap (fun kv => kv.2.map (fun v => "- " ++ kv.1 ++ ": " ++ renderVal v)))

/-- Claim-side numbered rendering of a sample list, numbering from `k`
(claim C8). -/
def renderRecords : Nat → List Row → List String
  | _, [] => []
  | k, r :: rs => ("Record " ++ toString k ++ ":\n" ++ bulletsSpec r) :: renderRecords (k + 1) rs

/-- Claim-side formatter (claim C8): the fixed no-matching-records message
on an empty page; otherwise a header stating the page row count followed
by a numbered bulleted rendering of at most the first 3 rows in order. -/
def formatSpec (results : List Row) : String :=
  match results with
  | [] => "No matching records found."
  | _ :: _ =>
      "Found " ++ toString results.length ++ " records.\n\nSample results:\n" ++
      String.intercalate "\n\n" (renderRecords 1 (results.take 3))

/-! ## Lemmas about the string primitives -/

/-- Predicate `beginsWith` decides the initial-segment relation. -/
theorem beginsWith_iff (n : List Char) :
    ∀ h : List Char, beginsWith n h = true ↔ ∃ r, h = n ++ r := by
  induction n with
  | nil =>
      intro h
      simp [beginsWith]
  | cons a as ih =>
      intro h
      cases h with
      | nil => simp [beginsWith]
      | cons b bs =>
          simp only [beginsWith, Bool.and_eq_true, beq_iff_eq, ih bs, List.cons_append,
            List.cons.injEq]
          constructor
          · rintro ⟨rfl, r, rfl⟩
            exact ⟨r, rfl, rfl⟩
          · rintro ⟨r, rfl, rfl⟩
            exact ⟨rfl, r, rfl⟩

/-- Predicate `containsSub` decides substring containment. -/
theorem containsSub_iff (n : List Char) :
    ∀ h : List Char, containsSub n h = true ↔ ∃ l r, h = l ++ n ++ r := by
  intro h
  induction h with
  | nil =>
      cases n with
      | nil => simp [containsSub, beginsWith]
      | cons a as => simp [containsSub, beginsWith]
  | cons b bs ih =>
      simp only [containsSub, Bool.or_eq_true, beginsWith_iff, ih]
      constructor
      · rintro (⟨r, hr⟩ | ⟨l, r, hlr⟩)
        · exact ⟨[], r, by simp [hr]⟩
        · exact ⟨b :: l, r, by simp [hlr]⟩
      · rintro ⟨l, r, hlr⟩
        cases l with
        | nil => exact Or.inl ⟨r, by simpa using hlr⟩
        | cons c cl =>
            injection hlr with h1 h2
            exact Or.inr ⟨cl, r, h2⟩

/-- The head surviving `dropWhile p` does not satisfy `p`. -/
theorem dropWhile_head_false (p : Char → Bool) :
    ∀ (l : List Char) (c : Char), (l.dropWhile p).head? = some c → p c = false := by
  intro l
  induction l with
  | nil => intro c h; simp [List.dropWhile] at h
  | cons a as ih =>
      intro c h
      rw [List.dropWhile_cons] at h
      by_cases hpa : p a = true
      · rw [if_pos hpa] at h
        exact ih c h
      · rw [if_neg hpa] at h
        simp only [List.head?_cons, Option.some.injEq] at h
        subst h
        exact Bool.eq_false_iff.mpr hpa

/-- Function `List.dropWhile` keeps the last element of the list when its result is
nonempty. -/
theorem dropWhile_getLast (p : Char → Bool) :
    ∀ (l : List Char) (c : Char),
      (l.dropWhile p).getLast? = some c → l.getLast? = some c := by
  intro l
  induction l with
  | nil => intro c h; simp [List.dropWhile] at h
  | cons a as ih =>
      intro c h
      rw [List.dropWhile_cons] at h
      by_cases hpa : p a = true
      · rw [if_pos hpa] at h
        have has := ih c h
        cases as with
        | nil => simp at has
        | cons b bs => rw [List.getLast?_cons_cons]; exact has
      · rw [if_neg hpa] at h
        exact h

/-- The first character of a stripped list does not satisfy the stripping
predicate. -/
theorem pyStrip_head (p : Char → Bool) (l : List Char) (c : Char)
    (h : (pyStrip p l).head? = some c) : p c = false := by
  unfold pyStrip dropWhileEndL at h
  rw [List.head?_reverse] at h
  have h2 := dropWhile_getLast p _ c h
  rw [List.getLast?_reverse] at h2
  exact dropWhile_head_false p _ c h2

/-- The last character of a stripped list does not satisfy the stripping
predicate. -/
theorem pyStrip_last (p : Char → Bool) (l : List Char) (c : Char)
    (h : (pyStrip p l).getLast? = some c) : p c = false := by
  unfold pyStrip dropWhileEndL at h
  rw [List.getLast?_reverse] at h
  exact dropWhile_head_false p _ c h

/-- Function `pyStrip` removes exactly a run of `p`-characters from each end. -/
theorem pyStrip_decomp (p : Char → Bool) (l : List Char) :
    ∃ pre post, (∀ c ∈ pre, p c = true) ∧ (∀ c ∈ post, p c = true) ∧
      l = pre ++ pyStrip p l ++ post := by
  refine ⟨l.takeWhile p, ((l.dropWhile p).reverse.takeWhile p).reverse, ?_, ?_, ?_⟩
  · intro c hc
    exact List.mem_takeWhile_imp hc
  · intro c hc
    rw [List.mem_reverse] at hc
    exact List.mem_takeWhile_imp hc
  · conv_lhs => rw [← List.takeWhile_append_dropWhile p l]
    rw [List.append_assoc]
    congr 1
    unfold pyStrip dropWhileEndL
    rw [← List.reverse_append, List.takeWhile_append_dropWhile, List.reverse_reverse]

/-- Helper: `Option.or` with an empty fallback is the identity. -/
theorem or_none (x : Option Char) : x.or none = x := by
  cases x <;> rfl

/-- Helper: `Option.or` with a `some` fallback absorbs any further
fallback. -/
theorem or_some_or (x : Option Char) (y : Char) (z : Option Char) :
    (x.or (some y)).or z = x.or (some y) := by
  cases x <;> rfl

/-- Helper: the last element of `c :: a` is the last element of `a`,
falling back to `c`. -/
theorem getLast?_cons_or (c : Char) (a : List Char) :
    (c :: a).getLast? = (a.getLast?).or (some c) := by
  induction a generalizing c with
  | nil => rfl
  | cons d as ih =>
      rw [List.getLast?_cons_cons, ih d, or_some_or]

/-- Characterization of whole-token occurrence: `hasWholeWordFrom kw prev l`
holds iff `l` splits as `a ++ kw ++ b` where the character preceding the
occurrence (the last of `a`, falling back to `prev`) and the character
following it (the head of `b`) are not word characters. -/
theorem hasWholeWordFrom_iff (kw : List Char) (hkw : kw ≠ []) :
    ∀ (l : List Char) (prev : Option Char),
      hasWholeWordFrom kw prev l = true ↔
        ∃ a b, l = a ++ kw ++ b
          ∧ (∀ c, (a.getLast?).or prev = some c → isWordChar c = false)
          ∧ (∀ c, b.head? = some c → isWordChar c = false) := by
  intro l
  induction l with
  | nil =>
      intro prev
      constructor
      · intro h
        simp [hasWholeWordFrom] at h
      · rintro ⟨a, b, hab, -, -⟩
        obtain ⟨hak, -⟩ := List.append_eq_nil.mp hab.symm
        obtain ⟨-, hk⟩ := List.append_eq_nil.mp hak
        exact absurd hk hkw
  | cons c rest ih =>
      intro prev
      constructor
      · intro h
        simp only [hasWholeWordFrom, Bool.or_eq_true, Bool.and_eq_true,
          Bool.not_eq_true'] at h
        rcases h with ⟨⟨hbw, hprev⟩, hrt⟩ | h2
        · obtain ⟨r, hr⟩ := (beginsWith_iff kw (c :: rest)).mp hbw
          refine ⟨[], r, by simpa using hr, ?_, ?_⟩
          · intro c' hc'
            have hc2 : prev = some c' := hc'
            cases prev with
            | none => exact absurd hc2 (by simp)
            | some p =>
                have hp : p = c' := by injection hc2
                subst hp
                simpa using hprev
          · intro c' hc'
            rw [hr, List.drop_left] at hrt
            rw [hc'] at hrt
            simpa using hrt
        · obtain ⟨a, b, hab, hleft, hright⟩ := (ih (some c)).mp h2
          refine ⟨c :: a, b, by simp [hab], ?_, hright⟩
          intro c' hc'
          apply hleft c'
          rw [getLast?_cons_or, or_some_or] at hc'
          exact hc'
      · rintro ⟨a, b, hab, hleft, hright⟩
        cases a with
        | nil =>
            simp only [List.nil_append] at hab
            simp only [hasWholeWordFrom, Bool.or_eq_true, Bool.and_eq_true,
              Bool.not_eq_true']
            left
            refine ⟨⟨(beginsWith_iff kw (c :: rest)).mpr ⟨b, hab⟩, ?_⟩, ?_⟩
            · cases prev with
              | none => rfl
              | some p => simpa using hleft p rfl
            · rw [hab, List.drop_left]
              cases hb : b.head? with
              | none => simp [hb]
              | some c' => simp [hb, hright c' hb]
        | cons c0 a' =>
            simp only [List.cons_append] at hab
            injection hab with h1 h2
            subst h1
            simp only [hasWholeWordFrom, Bool.or_eq_true]
            right
            apply (ih (some c)).mpr
            refine ⟨a', b, h2, ?_, hright⟩
            intro c' hc'
            apply hleft c'
            rw [getLast?_cons_or, or_some_or]
            rw [hc']

/-! ## Lemmas about the result formatter -/

/-- The source bullet renderer and the claim-side one agree. -/
theorem dict_to_bullets_eq (r : Row) : dict_to_bullets r = bulletsSpec r := by
  unfold dict_to_bullets bulletsSpec
  congr 1
  have hfg :
      (fun kv : String × Option SQLVal =>
        match kv.2 with
        | none => none
        | some v => some ("- " ++ kv.1 ++ ": " ++ renderVal v))
      = (fun kv : String × Option SQLVal =>
          kv.2.map (fun v => "- " ++ kv.1 ++ ": " ++ renderVal v)) := by
    funext kv
    obtain ⟨k, v⟩ := kv
    cases v <;> rfl
  rw [hfg]

/-- The enumerate-based numbering of the source equals the counter
recursion of the claim-side renderer. -/
theorem renderRecords_enumFrom (l : List Row) :
    ∀ k : Nat,
      (List.enumFrom k l).map
          (fun p => "Record " ++ toString (p.1 + 1) ++ ":\n" ++ dict_to_bullets p.2)
        = renderRecords (k + 1) l := by
  induction l with
  | nil => intro k; rfl
  | cons r rs ih =>
      intro k
      simp only [List.enumFrom, List.map_cons, renderRecords]
      rw [ih (k + 1), dict_to_bullets_eq r]

/-! ## Claims -/

/-- C8: for every empty row list, `format_response` returns the fixed
no-matching-records message; for every non-empty row list it returns a
header stating the page row count followed by a numbered bulleted
rendering of at most the first 3 rows in order, omitting null-valued
fields. The function is pure, so the input list is left unmodified; order
preservation is expressed by equality with the claim-side renderer
`formatSpec`, which walks `results.take 3` in order. -/
theorem c8_formatter_refines (results : List Row) :
    format_response results = formatSpec results := by
  cases results with
  | nil => rfl
  | cons r rs =>
      unfold format_response formatSpec
      simp only [List.isEmpty_cons, if_neg Bool.false_ne_true]
      have hsamples :
          (if (r :: rs).length > 3 then (r :: rs).take 3 else r :: rs)
            = (r :: rs).take 3 := by
        by_cases h : (r :: rs).length > 3
        · rw [if_pos h]
        · rw [if_neg h]
          rw [List.take_of_length_le (by omega)]
      rw [hsamples]
      have henum := renderRecords_enumFrom ((r :: rs).take 3) 0
      rw [List.enum]
      rw [henum]

/-- C2 (counterexample): on `SELECT backdrop FROM t` the source validator
returns `false` although the text contains no separator, no comment
marker, and none of the four keywords as a whole token — `drop` occurs
only inside the identifier `backdrop` (third conjunct), yet the naive
`"drop "` substring check of the source fires. The fourth conjunct states
the absence of whole-token occurrences directly as a splitting property
(no decomposition `a ++ kw ++ b` of the lowercased text whose surrounding
characters are non-word characters), independently of the executable
word-boundary matcher. The claim as stated is therefore false on the
code. -/
theorem c2_counterexample_backdrop :
    validate_sql "SELECT backdrop FROM t" = false
    ∧ claimRejects "SELECT backdrop FROM t" = false
    ∧ (∃ a b : List Char,
        lowerChars "SELECT backdrop FROM t" = a ++ "drop".data ++ b)
    ∧ (∀ kw ∈ (["drop", "delete", "update", "insert"] : List String),
        ¬ ∃ a b : List Char,
            lowerChars "SELECT backdrop FROM t" = a ++ kw.data ++ b
            ∧ (∀ c, a.getLast? = some c → isWordChar c = false)
            ∧ (∀ c, b.head? = some c → isWordChar c = false)) := by
  refine ⟨by decide, by decide, ⟨"select back".data, " from t".data, by decide⟩, ?_⟩
  intro kw hkw
  rintro ⟨a, b, hab, hleft, hright⟩
  have hmem : kw = "drop" ∨ kw = "delete" ∨ kw = "update" ∨ kw = "insert" := by
    simpa using hkw
  have hfalse : hasWholeWordFrom kw.data none (lowerChars "SELECT backdrop FROM t") = false := by
    rcases hmem with rfl | rfl | rfl | rfl <;> decide
  have hne : kw.data ≠ [] := by
    rcases hmem with rfl | rfl | rfl | rfl <;> decide
  have hleft2 : ∀ c, (a.getLast?).or none = some c → isWordChar c = false := by
    intro c hc
    apply hleft c
    rwa [or_none] at hc
  have htrue := (hasWholeWordFrom_iff kw.data hne
      (lowerChars "SELECT backdrop FROM t") none).mpr ⟨a, b, hab, hleft2, hright⟩
  rw [hfalse] at htrue
  exact Bool.false_ne_true htrue

/-- C2 (amended): the source validator returns `false` exactly when the
lowercased text contains one of `;`, `--`, `/*`, `*/`, `drop `, `delete `,
`update `, `insert ` (each keyword followed by a space) as a raw
substring — a naive substring check, not word-boundary matching, so
keywords inside longer identifiers are also rejected whenever a space
follows, and whole-token keywords at the very end of the text are
accepted. -/
theorem c2_validate_sql_characterization (s : String) :
    validate_sql s = false ↔
      ∃ f ∈ forbidden, ∃ a b : List Char, lowerChars s = a ++ f.data ++ b := by
  unfold validate_sql
  rw [Bool.not_eq_false']
  rw [List.any_eq_true]
  constructor
  · rintro ⟨f, hf, hc⟩
    exact ⟨f, hf, (containsSub_iff f.data (lowerChars s)).mp hc⟩
  · rintro ⟨f, hf, hab⟩
    exact ⟨f, hf, (containsSub_iff f.data (lowerChars s)).mpr hab⟩

/-- C5: the domain validator accepts exactly the texts containing at least
one keyword of the fixed set as a case-insensitive substring; and for
every query text containing no domain keyword, `handle_query` returns the
`Invalid` variant with an empty store trace, with a response that is
independent of the translator — so neither the inference service nor the
store is ever consulted. -/
theorem c5_domain_gate (q : String) (l o : Int) :
    (validate_query q = true ↔
      ∃ kw ∈ supply_chain_keywords, ∃ a b : List Char, lowerChars q = a ++ kw.data ++ b)
    ∧ (validate_query q = false →
        (∀ t1 t2, handle_query t1 q l o = handle_query t2 q l o)
        ∧ ∀ t, handle_query t q l o = (.invalid invalidMsg, [])) := by
  constructor
  · unfold validate_query
    rw [List.any_eq_true]
    constructor
    · rintro ⟨kw, hkw, hc⟩
      exact ⟨kw, hkw, (containsSub_iff _ _).mp hc⟩
    · rintro ⟨kw, hkw, hab⟩
      exact ⟨kw, hkw, (containsSub_iff _ _).mpr hab⟩
  · intro hv
    have hone : ∀ t, handle_query t q l o = (.invalid invalidMsg, []) := by
      intro t
      unfold handle_query
      rw [if_pos hv]
    exact ⟨fun t1 t2 => (hone t1).trans (hone t2).symm, hone⟩

/-- C5 witness: `draw me a picture` contains no domain keyword, so the
agent answers `Invalid` without consulting its translator. -/
theorem c5_domain_gate_witness :
    handle_query (fun _ _ _ => (.error .executionError, ["SELECT 1"])) "draw me a picture" 10 0
      = (.invalid invalidMsg, []) :=
  ((c5_domain_gate "draw me a picture" 10 0).2 (by decide)).2 _

/-- C7: `handle_query` is a total function into the three-variant
`QueryResponse` (totality is by construction of the embedding — the
Python `try`/`except` catching every stage failure is modelled by the
translator returning `Except`); it answers the `Invalid` variant exactly
on domain rejection, maps every translator failure kind to the `Error`
variant carrying a human-readable message, and maps every translator
success to the `Success` variant. -/
theorem c7_total_outcome_mapping
    (translate : String → Int → Int → Except PipelineError TransResult × List String)
    (q : String) (l o : Int) :
    ((handle_query translate q l o).1 = .invalid invalidMsg ↔ validate_query q = false)
    ∧ (∀ e tr, validate_query q = true → translate q l o = (.error e, tr) →
        (handle_query translate q l o).1
          = .error ("Error processing query: " ++ errorMessage e))
    ∧ (∀ t tr, validate_query q = true → translate q l o = (.ok t, tr) →
        ∃ p, (handle_query translate q l o).1
          = .success (format_response t.results) t.query p) := by
  by_cases hv : validate_query q = false
  · refine ⟨⟨fun _ => hv, fun _ => ?_⟩, fun e tr hvt _ => absurd hv (by simp [hvt]), fun t tr hvt _ => absurd hv (by simp [hvt])⟩
    unfold handle_query
    rw [if_pos hv]
  · have hres : handle_query translate q l o
        = match translate q l o with
          | (.error e, tr) => (.error ("Error processing query: " ++ errorMessage e), tr)
          | (.ok translation, tr) =>
              (.success (format_response translation.results) translation.query
                { limit := l, offset := o,
                  total := translation.total_count.getD (translation.results.length : Int),
                  has_more := decide (o + (translation.results.length : Int)
                    < translation.total_count.getD (translation.results.length : Int)) },
               tr) := by
      unfold handle_query
      rw [if_neg hv]
    refine ⟨?_, ?_, ?_⟩
    · constructor
      · intro hinv
        rcases htr : translate q l o with ⟨res, tr⟩
        rcases res with e | t <;> rw [hres, htr] at hinv <;> exact absurd hinv (by simp)
      · intro hfalse
        exact absurd hfalse hv
    · intro e tr _ htr
      rw [hres, htr]
    · intro t tr _ htr
      refine ⟨{ limit := l, offset := o,
                total := t.total_count.getD (t.results.length : Int),
                has_more := decide (o + (t.results.length : Int)
                  < t.total_count.getD (t.results.length : Int)) }, ?_⟩
      rw [hres, htr]

/-- C7 witness: a translator failing with `ExecutionError` on an in-domain
query is surfaced as the `Error` variant with its message. -/
theorem c7_total_outcome_mapping_witness :
    (handle_query (fun _ _ _ => (.error .executionError, ["SELECT 1"])) "count orders" 5 0).1
      = .error ("Error processing query: " ++ errorMessage .executionError) :=
  (c7_total_outcome_mapping (fun _ _ _ => (.error .executionError, ["SELECT 1"]))
    "count orders" 5 0).2.1 .executionError ["SELECT 1"] (by decide) rfl

/-- C10 (implicit behaviour of `handle_query`, from the source
`translation.get("total_count", len(translation["results"]))`): whenever
the translation result has no `total_count` field, the orchestrator uses
the page length as the total, and therefore — for any offset ≥ 0 — the
returned `has_more` flag is `false`, regardless of how many matching rows
exist in the store. -/
theorem c10_missing_total_defaults_to_page
    (translate : String → Int → Int → Except PipelineError TransResult × List String)
    (q : String) (l o : Int) (t : TransResult) (tr : List String)
    (ho : 0 ≤ o) (hv : validate_query q = true)
    (htr : translate q l o = (.ok t, tr)) (hnone : t.total_count = none) :
    (handle_query translate q l o).1
      = .success (format_response t.results) t.query
          { limit := l, offset := o, total := (t.results.length : Int),
            has_more := false } := by
  unfold handle_query
  rw [if_neg (by simp [hv]), htr]
  have hlt : ¬ (o + (t.results.length : Int) < (t.results.length : Int)) := by omega
  simp only [hnone, Option.getD_none, decide_eq_false hlt]

/-- C10 witness: a translator success carrying three rows and no
`total_count` yields `total = 3` and `has_more = false` even at
`offset = 0`, `limit = 2`. -/
theorem c10_missing_total_witness :
    (handle_query
        (fun _ _ _ => (.ok ⟨"SELECT 1", [[("a", some (.int 1))], [("a", some (.int 2))], [("a", some (.int 3))]], none⟩, []))
        "order status" 2 0).1
      = .success
          (format_response [[("a", some (.int 1))], [("a", some (.int 2))], [("a", some (.int 3))]])
          "SELECT 1"
          { limit := 2, offset := 0, total := (3 : Int), has_more := false } :=
  c10_missing_total_defaults_to_page _ "order status" 2 0
    ⟨"SELECT 1", [[("a", some (.int 1))], [("a", some (.int 2))], [("a", some (.int 3))]], none⟩ []
    (by decide) (by decide) rfl rfl

/-- C9 (two-run determinism, hyperproperty form): two runs of the full
pipeline on the identical request, against generators with the same
prompt-to-completion behaviour and stores with the same introspection data
and the same statement-to-rows behaviour, produce identical responses and
identical store traces. The pipeline keeps no hidden state: its result
depends only on the input/output behaviour of the collaborators. Uses the
spec-modelled `translate_query` for the translator stage. -/
theorem c9_two_run_determinism
    (g1 g2 : String → Option String) (s1 s2 : Store) (q : String) (l o : Int)
    (hg : ∀ p, g1 p = g2 p) (hx : ∀ sql, s1.exec sql = s2.exec sql)
    (hsch : s1.schema = s2.schema) (hsam : s1.samples = s2.samples) :
    handle_query (translate_query g1 s1) q l o
      = handle_query (translate_query g2 s2) q l o := by
  have hgg : g1 = g2 := funext hg
  obtain ⟨sch1, sam1, ex1⟩ := s1
  obtain ⟨sch2, sam2, ex2⟩ := s2
  have h1 : sch1 = sch2 := hsch
  have h2 : sam1 = sam2 := hsam
  have h3 : ex1 = ex2 := funext hx
  subst hgg h1 h2 h3
  rfl

/-- C9 witness: syntactically different but extensionally equal
collaborators give identical responses on the identical request. -/
theorem c9_two_run_determinism_witness :
    handle_query (translate_query (fun _ => some "SELECT 1") ⟨[], [], fun _ => none⟩) "orders" 5 0
      = handle_query (translate_query (fun _ => some ("SELECT " ++ "1")) ⟨[], [], fun _ => none⟩) "orders" 5 0 :=
  c9_two_run_determinism (fun _ => some "SELECT 1") (fun _ => some ("SELECT " ++ "1"))
    ⟨[], [], fun _ => none⟩ ⟨[], [], fun _ => none⟩ "orders" 5 0
    (by intro p; rfl) (fun _ => rfl) rfl rfl

/-- C1: a generated SQL text rejected by the safety validator aborts the
pipeline as an unsafe-query failure surfaced as the `Error` response, with
an empty store trace — the execute of the store is never invoked on that
statement (or any other). First conjunct: the full orchestrated pipeline
with the spec-modelled translator. Second conjunct: the source prototype
`SupplyChainDB.query`, whose `_execute_sql` validates before any cursor
execution and raises `ValueError("Query failed safety check")`. -/
theorem c1_unsafe_sql_never_executed :
    (∀ (gen : String → Option String) (store : Store) (q : String) (l o : Int) (raw : String),
        validate_query q = true →
        gen (createPromptT q store l o) = some raw →
        validate_sql (postprocessSpecT raw) = false →
        handle_query (translate_query gen store) q l o
          = (.error ("Error processing query: " ++ errorMessage .unsafeQueryError), []))
    ∧ (∀ (gen : String → Option String) (store : Store) (q : String) (raw : String),
        gen (create_prompt q store) = some raw →
        validate_sql (postprocessSrc raw) = false →
        SupplyChainDB.query gen store q = (.err "Query failed safety check", [])) := by
  constructor
  · intro gen store q l o raw hv hgen hbad
    have hne : ¬ (postprocessSpecT raw = "") := by
      intro h
      rw [h] at hbad
      exact absurd hbad (by decide)
    unfold handle_query translate_query
    rw [if_neg (by simp [hv]), hgen]
    simp only [if_neg hne, hbad]
    rfl
  · intro gen store q raw hgen hbad
    unfold SupplyChainDB.query
    rw [hgen]
    simp only [hbad]
    rfl

/-- C1 witness: a generator emitting `DROP TABLE supply_chain_orders` on
an in-domain query yields the `Error` response and an empty store trace. -/
theorem c1_unsafe_sql_never_executed_witness :
    handle_query
        (translate_query (fun _ => some "DROP TABLE supply_chain_orders")
          ⟨[("order_id", "TEXT")], [], fun _ => some []⟩)
        "show orders" 10 0
      = (.error ("Error processing query: " ++ errorMessage .unsafeQueryError), []) :=
  c1_unsafe_sql_never_executed.1 (fun _ => some "DROP TABLE supply_chain_orders")
    ⟨[("order_id", "TEXT")], [], fun _ => some []⟩ "show orders" 10 0
    "DROP TABLE supply_chain_orders" (by decide) rfl (by decide)

/-- C3: in the spec-modelled executor, once the data statement has been
executed successfully, the total is obtained by executing
`SELECT COUNT(*) FROM (<generated statement>)` on the original, unmodified
statement as a separate store round-trip: every success carries exactly
the count extracted from that sub-query, and if the count sub-query fails
or yields no count the whole operation fails with `ExecutionError` — the
page row count is never silently substituted. -/
theorem c3_total_count_from_count_subquery
    (gen : String → Option String) (store : Store) (q : String) (l o : Int)
    (raw : String) (rows : List Row)
    (hgen : gen (createPromptT q store l o) = some raw)
    (hne : ¬ (postprocessSpecT raw = ""))
    (hsafe : validate_sql (postprocessSpecT raw) = true)
    (hexec : store.exec (postprocessSpecT raw) = some rows) :
    (∀ t tr, translate_query gen store q l o = (.ok t, tr) →
        ∃ crows n, store.exec (countWrap (postprocessSpecT raw)) = some crows
          ∧ extractCount crows = some n ∧ t.total_count = some n
          ∧ t.results = rows ∧ t.query = postprocessSpecT raw)
    ∧ (store.exec (countWrap (postprocessSpecT raw)) = none →
        translate_query gen store q l o
          = (.error .executionError,
             [postprocessSpecT raw, countWrap (postprocessSpecT raw)]))
    ∧ (∀ crows, store.exec (countWrap (postprocessSpecT raw)) = some crows →
        extractCount crows = none →
        translate_query gen store q l o
          = (.error .executionError,
             [postprocessSpecT raw, countWrap (postprocessSpecT raw)])) := by
  have hunf : translate_query gen store q l o
      = match store.exec (countWrap (postprocessSpecT raw)) with
        | none => (.error .executionError,
            [postprocessSpecT raw, countWrap (postprocessSpecT raw)])
        | some crows =>
            match extractCount crows with
            | none => (.error .executionError,
                [postprocessSpecT raw, countWrap (postprocessSpecT raw)])
            | some n => (.ok ⟨postprocessSpecT raw, rows, some n⟩,
                [postprocessSpecT raw, countWrap (postprocessSpecT raw)]) := by
    unfold translate_query
    rw [hgen]
    simp only [if_neg hne, hsafe, if_true, hexec]
  refine ⟨?_, ?_, ?_⟩
  · intro t tr hok
    rw [hunf] at hok
    rcases hcw : store.exec (countWrap (postprocessSpecT raw)) with _ | crows
    · simp only [hcw, Prod.mk.injEq] at hok
      exact absurd hok.1 (by simp)
    · simp only [hcw] at hok
      rcases hec : extractCount crows with _ | n
      · simp only [hec, Prod.mk.injEq] at hok
        exact absurd hok.1 (by simp)
      · simp only [hec, Prod.mk.injEq, Except.ok.injEq] at hok
        obtain ⟨ht, -⟩ := hok
        subst ht
        exact ⟨crows, n, rfl, hec, rfl, rfl, rfl⟩
  · intro hcw
    rw [hunf]
    simp only [hcw]
  · intro crows hcw hec
    rw [hunf]
    simp only [hcw, hec]

/-- C3 witness: a store accepting `SELECT 1` but rejecting its count
wrapping makes the whole translation fail with `ExecutionError`. -/
theorem c3_total_count_witness :
    translate_query (fun _ => some "SELECT 1")
        ⟨[], [], fun s => if s = "SELECT 1" then some [] else none⟩ "orders" 5 0
      = (.error .executionError, ["SELECT 1", countWrap "SELECT 1"]) :=
  (c3_total_count_from_count_subquery (fun _ => some "SELECT 1")
      ⟨[], [], fun s => if s = "SELECT 1" then some [] else none⟩ "orders" 5 0
      "SELECT 1" [] rfl (by decide) (by decide) (by decide)).2.1 (by decide)

/-- A store page of two rows used to exercise the pagination claims. -/
def rowA : Row := [("order_id", some (.str "A1"))]

/-- Second row of the two-row page. -/
def rowB : Row := [("order_id", some (.str "B2"))]

/-- A count sub-query result row reporting five matching rows. -/
def crow5 : Row := [("COUNT(*)", some (.int 5))]

/-- A store returning a two-row page for the generated statement and a
count of five for its count wrapping. -/
def storeC4 : Store :=
  ⟨[], [],
   fun s =>
     if s = "SELECT x FROM t" then some [rowA, rowB]
     else if s = countWrap "SELECT x FROM t" then some [crow5]
     else none⟩

/-- A generator that always emits the fixed statement. -/
def genC4 : String → Option String := fun _ => some "SELECT x FROM t"

/-- C4 (counterexample): nothing in the pipeline truncates the returned
page to `limit` — the statement is executed as given, so a store answering
two rows to a `limit = 1, offset = 0` request still produces a `Success`
response whose page has two rows, violating `rows.length ≤ limit` as the
claim states it (the `has_more` equation itself does hold). -/
theorem c4_counterexample_page_exceeds_limit :
    (translate_query genC4 storeC4 "show orders" 1 0).1
        = .ok ⟨"SELECT x FROM t", [rowA, rowB], some 5⟩
    ∧ (handle_query (translate_query genC4 storeC4) "show orders" 1 0).1
        = .success (format_response [rowA, rowB]) "SELECT x FROM t"
            { limit := 1, offset := 0, total := 5, has_more := true }
    ∧ ¬ ((([rowA, rowB] : List Row).length : Int) ≤ 1) := by
  refine ⟨by rfl, by rfl, by decide⟩

/-- C4 (amended): every successful response hands the store page through
untruncated — the translation result is exactly the store page together
with the extracted count (first conjunct) — and, unconditionally for
every such success, the response `has_more` field equals
`(offset + rows.length) < total` where `rows` is that page and `total`
the extracted count (second conjunct, proved without any bound on the
page size). Consequently `rows.length ≤ limit` holds exactly when the
page the store returns for the executed statement has at most `limit`
rows: the pipeline never truncates and relies on the generated statement
embedding the limit clause. -/
theorem c4_pagination_invariant
    (gen : String → Option String) (store : Store) (q : String) (l o : Int)
    (raw : String) (rows crows : List Row) (n : Int)
    (hv : validate_query q = true)
    (hgen : gen (createPromptT q store l o) = some raw)
    (hne : ¬ (postprocessSpecT raw = ""))
    (hsafe : validate_sql (postprocessSpecT raw) = true)
    (hexec : store.exec (postprocessSpecT raw) = some rows)
    (hcount : store.exec (countWrap (postprocessSpecT raw)) = some crows)
    (hn : extractCount crows = some n) :
    (translate_query gen store q l o).1
        = .ok ⟨postprocessSpecT raw, rows, some n⟩
    ∧ (handle_query (translate_query gen store) q l o).1
        = .success (format_response rows) (postprocessSpecT raw)
            { limit := l, offset := o, total := n,
              has_more := decide (o + (rows.length : Int) < n) } := by
  have htq : translate_query gen store q l o
      = (.ok ⟨postprocessSpecT raw, rows, some n⟩,
         [postprocessSpecT raw, countWrap (postprocessSpecT raw)]) := by
    unfold translate_query
    rw [hgen]
    simp only [if_neg hne, hsafe, if_true, hexec, hcount, hn]
  refine ⟨by rw [htq], ?_⟩
  unfold handle_query
  rw [if_neg (by simp [hv]), htq]
  rfl

/-- C4 witness: the two-row store under `limit = 2` — the page passes
through untruncated and `has_more` is computed from the page length and
the extracted count. -/
theorem c4_pagination_invariant_witness :
    (translate_query genC4 storeC4 "show orders" 2 0).1
        = .ok ⟨postprocessSpecT "SELECT x FROM t", [rowA, rowB], some 5⟩
    ∧ (handle_query (translate_query genC4 storeC4) "show orders" 2 0).1
        = .success (format_response [rowA, rowB]) (postprocessSpecT "SELECT x FROM t")
            { limit := 2, offset := 0, total := 5,
              has_more := decide ((0 : Int) + (([rowA, rowB] : List Row).length : Int) < 5) } :=
  c4_pagination_invariant genC4 storeC4 "show orders" 2 0 "SELECT x FROM t"
    [rowA, rowB] [crow5] 5 (by decide) rfl (by decide) (by decide) (by decide)
    (by decide) (by decide)

/-- A permissive store used to exercise the prototype on an empty model
response. -/
def storeC6 : Store := ⟨[], [], fun _ => some []⟩

/-- C6 (counterexample): on the raw response `SELECT 1;;` the source
post-processing (`.strip().strip(";")`) removes BOTH trailing
semicolons, not at most one (the first three conjuncts); and on an empty
response there is no generation failure — the empty statement is passed
straight to the store (fourth conjunct: the trace shows the store executed
`""`). -/
theorem c6_counterexample_double_semicolon :
    postprocessSrc "SELECT 1;;" = "SELECT 1"
    ∧ postprocessSpecT "SELECT 1;;" = "SELECT 1;"
    ∧ postprocessSrc "SELECT 1;;" ≠ postprocessSpecT "SELECT 1;;"
    ∧ (SupplyChainDB.query (fun _ => some "") storeC6 "orders").2 = [""] := by
  refine ⟨by rfl, by rfl, by decide, by rfl⟩

/-- C6 (amended): the source post-processing trims surrounding whitespace
and then removes ALL leading and trailing semicolons (decomposition: the
whitespace-trimmed response is the result surrounded by runs of `;`, and
the result neither starts nor ends with `;`); and the generator stage
performs no emptiness check — an empty response flows to the executor as
the empty statement (last conjunct), failing there rather than with a
generation error. -/
theorem c6_postprocessing_characterization (raw : String) :
    (∃ pre post, (∀ c ∈ pre, c = ';') ∧ (∀ c ∈ post, c = ';')
       ∧ pyStrip isPyWs raw.data = pre ++ (postprocessSrc raw).data ++ post)
    ∧ (∀ c, (postprocessSrc raw).data.head? = some c → c ≠ ';')
    ∧ (∀ c, (postprocessSrc raw).data.getLast? = some c → c ≠ ';')
    ∧ (∀ (gen : String → Option String) (store : Store) (q : String),
        gen (create_prompt q store) = some "" →
        (SupplyChainDB.query gen store q).2 = [""]) := by
  refine ⟨?_, ?_, ?_, ?_⟩
  · obtain ⟨pre, post, h1, h2, h3⟩ := pyStrip_decomp (· == ';') (pyStrip isPyWs raw.data)
    refine ⟨pre, post, ?_, ?_, h3⟩
    · intro c hc
      simpa using h1 c hc
    · intro c hc
      simpa using h2 c hc
  · intro c hc
    have := pyStrip_head (· == ';') (pyStrip isPyWs raw.data) c hc
    simpa using this
  · intro c hc
    have := pyStrip_last (· == ';') (pyStrip isPyWs raw.data) c hc
    simpa using this
  · intro gen store q hg
    unfold SupplyChainDB.query
    rw [hg]
    have hval : validate_sql (postprocessSrc "") = true := by decide
    simp only [hval, if_true]
    rcases store.exec (postprocessSrc "") with _ | rows <;> rfl

/-- C6 witness: the empty-response conjunct applied to a concrete
generator and store — the empty statement reaches the store. -/
theorem c6_postprocessing_witness :
    (SupplyChainDB.query (fun _ => some "") ⟨[], [], fun _ => none⟩ "orders here").2 = [""] :=
  (c6_postprocessing_characterization "").2.2.2 (fun _ => some "")
    ⟨[], [], fun _ => none⟩ "orders here" rfl
